import Mathlib

/-!
Shallow embedding of `ecs-run-task` (src/cmd/root.go) in Lean 4.

The program is a linear pipeline over two remote AWS services (ECS and
CloudWatch Logs).  We model each remote call's response as a field of an
`Env` record (an `Except String _` value: `.error e` is the Go `err != nil`
branch carrying the error text, `.ok` the successful response), and model
the program as a function of the `Env` and the flag values into a trace of
observable events (prints and API requests) plus a final result: normal
return, `os.Exit(code)`, or a Go runtime panic (nil-pointer dereference /
index out of range).

Pointer-typed response fields of the aws-sdk-go structs are `Option`s;
dereferencing `none` is the panic.  `map[string]*string` becomes an
association list with `Option String` values (a key can be present with a
nil value).  Go's `strings.Split` with a one-character separator is
embedded as `goSplit` below.
-/

/-- A split-off chunk accumulator version of Go's `strings.Split` for a
one-character separator, over `List Char`.  `acc` holds the current chunk
reversed.  `strings.Split("", sep) = [""]` is matched by
`splitOnCharAux c [] [] = [[]]`. -/
def splitOnCharAux (c : Char) : List Char → List Char → List (List Char)
  | [], acc => [acc.reverse]
  | x :: xs, acc =>
    if x = c then acc.reverse :: splitOnCharAux c xs []
    else splitOnCharAux c xs (x :: acc)

/-- Go's `strings.Split(s, sep)` for the one-character separators used by
the program (`","` and `"/"`). -/
def goSplit (s : String) (c : Char) : List String :=
  (splitOnCharAux c s.data []).map String.mk

/-- `taskArnSplit[len(taskArnSplit)-1]` from `RunTask` (root.go:99-100):
the last chunk of the `"/"`-split of the task ARN.  `strings.Split` never
returns an empty slice, so the Go index `len-1` is total; `getLastD` with
an arbitrary default is faithful. -/
def extractTaskArnID (taskArn : String) : String :=
  (goSplit taskArn '/').getLastD ""

/-- Lookup in a Go `map[string]*string` followed by pointer dereference:
`some v` iff the key is present with a non-nil value. -/
def mapGet (m : List (String × Option String)) (k : String) : Option String :=
  (m.lookup k).join

/- ### aws-sdk-go response types (the fields root.go reads) -/

/-- Embeds `ecs.Container`: `Name *string`, `ExitCode *int64`. -/
structure GoContainer where
  name : Option String
  exitCode : Option Int
deriving Repr, DecidableEq

/-- Embeds `ecs.Task`: `TaskArn *string`, `Containers []*Container`,
`StoppedReason *string`. -/
structure GoTask where
  taskArn : Option String
  containers : List GoContainer
  stoppedReason : Option String
deriving Repr, DecidableEq

/-- Embeds `ecs.RunTaskOutput`: `Tasks []*Task`. -/
structure RunTaskOutput where
  tasks : List GoTask
deriving Repr, DecidableEq

/-- Embeds `ecs.LogConfiguration`: `Options map[string]*string`. -/
structure LogConfiguration where
  options : List (String × Option String)
deriving Repr, DecidableEq

/-- Embeds `ecs.ContainerDefinition`: `LogConfiguration *LogConfiguration`. -/
structure ContainerDefinition where
  logConfiguration : Option LogConfiguration
deriving Repr, DecidableEq

/-- Embeds `ecs.TaskDefinition`: `ContainerDefinitions []*ContainerDefinition`. -/
structure TaskDefinition where
  containerDefinitions : List ContainerDefinition
deriving Repr, DecidableEq

/-- Embeds `ecs.DescribeTaskDefinitionOutput`: `TaskDefinition *TaskDefinition`. -/
structure DescribeTaskDefinitionOutput where
  taskDefinition : Option TaskDefinition
deriving Repr, DecidableEq

/-- Embeds `ecs.DescribeTasksOutput`: `Tasks []*Task`. -/
structure DescribeTasksOutput where
  tasks : List GoTask
deriving Repr, DecidableEq

/-- Embeds `cloudwatchlogs.OutputLogEvent`: `Message *string`. -/
structure OutputLogEvent where
  message : Option String
deriving Repr, DecidableEq

/-- Embeds `cloudwatchlogs.GetLogEventsOutput`: `Events []*OutputLogEvent`. -/
structure GetLogEventsOutput where
  events : List OutputLogEvent
deriving Repr, DecidableEq

/-- Embeds the `ecs.TaskDefinition` returned by registration:
`TaskDefinitionArn *string`. -/
structure RegisteredTaskDefinition where
  taskDefinitionArn : Option String
deriving Repr, DecidableEq

/-- Embeds `ecs.RegisterTaskDefinitionOutput`: `TaskDefinition *TaskDefinition`. -/
structure RegisterTaskDefinitionOutput where
  taskDefinition : Option RegisteredTaskDefinition
deriving Repr, DecidableEq

/- ### aws-sdk-go request types (the fields root.go sets) -/

/-- Embeds `ecs.AwsVpcConfiguration`: `Subnets`, `SecurityGroups`. -/
structure AwsVpcConfiguration where
  subnets : List String
  securityGroups : List String
deriving Repr, DecidableEq

/-- Embeds `ecs.NetworkConfiguration`: `AwsvpcConfiguration *AwsVpcConfiguration`. -/
structure NetworkConfiguration where
  awsvpcConfiguration : AwsVpcConfiguration
deriving Repr, DecidableEq

/-- Embeds `ecs.RunTaskInput` as built at root.go:76-90. -/
structure RunTaskInput where
  cluster : String
  count : Int
  launchType : String
  taskDefinition : String
  networkConfiguration : Option NetworkConfiguration
deriving Repr, DecidableEq

/-- Embeds `cloudwatchlogs.GetLogEventsInput` as built at root.go:126-131. -/
structure GetLogEventsInput where
  limit : Int
  logGroupName : String
  logStreamName : String
  startFromHead : Bool
deriving Repr, DecidableEq

/-- Embeds `ecs.DescribeTasksInput` (used for the wait and for `GetExit`). -/
structure DescribeTasksInput where
  cluster : String
  tasks : List String
deriving Repr, DecidableEq

/- ### observable events and the process model -/

/-- One observable step of the process: a printed line (one `fmt` call,
with `fmt.Println`'s space between operands already applied), the usage
text from `cmd.Usage()`, or one outgoing API request with its payload. -/
inductive Event where
  | print (line : String)
  | printUsage
  | apiRunTask (input : RunTaskInput)
  | apiDescribeTaskDefinition (taskDefinition : String)
  | apiWaitUntilTasksStopped (input : DescribeTasksInput)
  | apiGetLogEvents (input : GetLogEventsInput)
  | apiDescribeTasks (input : DescribeTasksInput)
  | apiRegisterTaskDefinition
deriving Repr, DecidableEq

/-- How a computation ends: a normal value, `os.Exit(code)`, or a Go
runtime panic (nil dereference / index out of range). -/
inductive ProcResult (α : Type) where
  | ok (a : α)
  | exited (code : Int)
  | panicked
deriving Repr, DecidableEq

/-- A process computation: the events it emitted, in order, and how it
ended. -/
structure Proc (α : Type) where
  trace : List Event
  result : ProcResult α
deriving Repr, DecidableEq

def Proc.pureP {α : Type} (a : α) : Proc α := ⟨[], .ok a⟩

def Proc.bindP {α β : Type} (x : Proc α) (f : α → Proc β) : Proc β :=
  match x.result with
  | .ok a => let y := f a; ⟨x.trace ++ y.trace, y.result⟩
  | .exited c => ⟨x.trace, .exited c⟩
  | .panicked => ⟨x.trace, .panicked⟩

instance : Monad Proc where
  pure := Proc.pureP
  bind := Proc.bindP

/-- Emit one event and continue. -/
def emit (e : Event) : Proc Unit := ⟨[e], .ok ()⟩

/-- One `fmt.Print`/`fmt.Printf`/`fmt.Println` call. -/
def prn (s : String) : Proc Unit := emit (.print s)

/-- Model of `os.Exit(code)`. -/
def procExit {α : Type} (code : Int) : Proc α := ⟨[], .exited code⟩

/-- Dereference a Go pointer: panic on nil. -/
def deref {α : Type} (o : Option α) : Proc α :=
  match o with
  | some a => Proc.pureP a
  | none => ⟨[], .panicked⟩

/-- Index into a Go slice: panic when out of range. -/
def sliceIndex {α : Type} (l : List α) (i : Nat) : Proc α := deref l[i]?

/- ### the environment: one response per remote call the program makes -/

/-- The responses the remote services give to the (at most one of each)
calls the program makes, plus the local file-open outcome for `-f` mode.
`.error e` is Go's `err != nil` with error text `e`. -/
structure Env where
  runTaskResp : Except String RunTaskOutput
  describeTaskDefinitionResp : Except String DescribeTaskDefinitionOutput
  waitUntilTasksStoppedResp : Except String Unit
  getLogEventsResp : Except String GetLogEventsOutput
  describeTasksResp : Except String DescribeTasksOutput
  registerTaskDefinitionResp : Except String RegisterTaskDefinitionOutput
  openFileResp : Except String Unit

/-- The flag variables registered in `init()` (root.go:61-69), as one
record. -/
structure Flags where
  ecsCluster : String
  taskDefinition : String
  taskDefinitionFile : Bool
  securityGroups : String
  subnets : String
  launchType : String
deriving Repr, DecidableEq

/-- The long-form flag names registered in `init()` (root.go:61-69). -/
def registeredFlags : List String :=
  ["cluster", "task-definition", "file", "launch-type", "security-groups",
   "subnets"]

/- ### the four Go functions -/

/-- Embeds `ParseTaskDefinition` (root.go:161-180).  The `os.Open` error is
printed but execution continues (no `os.Exit`); `ioutil.ReadAll` and
`json.Unmarshal` errors are discarded; only a `RegisterTaskDefinition`
error is fatal.  Returns `*output.TaskDefinition.TaskDefinitionArn`. -/
def ParseTaskDefinition (env : Env) (fileName : String) : Proc String := do
  match env.openFileResp with
  | .error e => prn e
  | .ok _ => Proc.pureP ()
  prn ("Successfully Opened task definition:" ++ " " ++ fileName)
  emit .apiRegisterTaskDefinition
  match env.registerTaskDefinitionResp with
  | .error e => do
    prn "Got error registering task definition:"
    prn e
    procExit 1
  | .ok output => do
    let td ← deref output.taskDefinition
    deref td.taskDefinitionArn

/-- Embeds `RunTask` (root.go:73-120).  Returns
`(logGroupName, logStreamName, taskArnID)`.  Note the `_`-discarded error
of `DescribeTaskDefinition` at root.go:104: on error the output struct has
a nil `TaskDefinition` field, so the later dereference panics. -/
def RunTask (env : Env) (subnets securityGroups : String)
    (ecsCluster launchType taskDefinition : String) :
    Proc (String × String × String) := do
  prn ("Launching task " ++ taskDefinition ++ " in an ECS Cluster " ++
       ecsCluster ++ "...")
  let baseInput : RunTaskInput :=
    { cluster := ecsCluster, count := 1, launchType := launchType,
      taskDefinition := taskDefinition, networkConfiguration := none }
  let runTaskInput ←
    if subnets ≠ "" ∨ securityGroups ≠ "" then do
      prn "test"
      Proc.pureP { baseInput with
        networkConfiguration := some
          { awsvpcConfiguration :=
              { subnets := goSplit subnets ','
                securityGroups := goSplit securityGroups ',' } } }
    else
      Proc.pureP baseInput
  emit (.apiRunTask runTaskInput)
  match env.runTaskResp with
  | .error e => do
    prn "Got error launching task:"
    prn e
    procExit 1
  | .ok output => do
    let task0 ← sliceIndex output.tasks 0
    let taskArn ← deref task0.taskArn
    let taskArnID := extractTaskArnID taskArn
    let container0 ← sliceIndex task0.containers 0
    let containerName ← deref container0.name
    emit (.apiDescribeTaskDefinition taskDefinition)
    let taskDefinitionOutput : DescribeTaskDefinitionOutput :=
      match env.describeTaskDefinitionResp with
      | .ok o => o
      | .error _ => { taskDefinition := none }
    let td ← deref taskDefinitionOutput.taskDefinition
    let cd0 ← sliceIndex td.containerDefinitions 0
    let logConf ← deref cd0.logConfiguration
    let logPrefix ← deref (mapGet logConf.options "awslogs-stream-prefix")
    emit (.apiWaitUntilTasksStopped
      { cluster := ecsCluster, tasks := [taskArn] })
    match env.waitUntilTasksStoppedResp with
    | .error e => do
      prn "Got error running the task:"
      prn e
      procExit 1
    | .ok _ => Proc.pureP ()
    let logStreamName := logPrefix ++ "/" ++ containerName ++ "/" ++ taskArnID
    let logGroupName ← deref (mapGet logConf.options "awslogs-group")
    Proc.pureP (logGroupName, logStreamName, taskArnID)

/-- The `for _, event := range resp.Events` loop of `GetLogs`
(root.go:138-140): `fmt.Println("  ", *event.Message)` per event
(`Println` puts one space between the two operands). -/
def printEvents : List OutputLogEvent → Proc Unit
  | [] => Proc.pureP ()
  | e :: rest => do
    let m ← deref e.message
    prn ("  " ++ " " ++ m)
    printEvents rest

/-- Embeds `GetLogs` (root.go:123-141). -/
def GetLogs (env : Env) (logStreamName logGroupName : String) : Proc Unit := do
  emit (.apiGetLogEvents
    { limit := 100, logGroupName := logGroupName,
      logStreamName := logStreamName, startFromHead := true })
  match env.getLogEventsResp with
  | .error e => do
    prn "Error getting log events:"
    prn e
    procExit 1
  | .ok resp => do
    prn "Logs:"
    printEvents resp.events

/-- Embeds `GetExit` (root.go:144-158).  Returns `(exitCode, stoppedReason)` of
the first container of the first task of the describe-tasks response. -/
def GetExit (env : Env) (ecsCluster task : String) : Proc (Int × String) := do
  emit (.apiDescribeTasks { cluster := ecsCluster, tasks := [task] })
  match env.describeTasksResp with
  | .error e => do
    prn "Got error describing task:"
    prn e
    procExit 1
  | .ok output => do
    let t0 ← sliceIndex output.tasks 0
    let c0 ← sliceIndex t0.containers 0
    let exitCode ← deref c0.exitCode
    let stoppedReason ← deref t0.stoppedReason
    Proc.pureP (exitCode, stoppedReason)

/-- Embeds `rootCmd.Run` (root.go:29-49): the whole pipeline.  The final
`os.Exit(int(exitCode))` makes the container's exit code the process's
result. -/
def rootRun (env : Env) (f : Flags) : Proc Unit := do
  if f.ecsCluster = "" ∨ f.taskDefinition = "" then do
    emit .printUsage
    procExit 1
  else do
    let taskDefinition ←
      if f.taskDefinitionFile then do
        let td ← ParseTaskDefinition env f.taskDefinition
        prn ("Succesfully uploaded: " ++ " " ++ td)
        Proc.pureP td
      else
        Proc.pureP f.taskDefinition
    let r ← RunTask env f.subnets f.securityGroups f.ecsCluster f.launchType
      taskDefinition
    let logGroupName := r.1
    let logStreamName := r.2.1
    let taskArnID := r.2.2
    GetLogs env logStreamName logGroupName
    let e ← GetExit env f.ecsCluster taskArnID
    prn ("Exit reason:" ++ " " ++ e.2)
    procExit e.1

/- ### basic lemmas about the process model -/

@[simp] lemma emit_trace (e : Event) : (emit e).trace = [e] := rfl

@[simp] lemma emit_result (e : Event) : (emit e).result = .ok () := rfl

@[simp] lemma prn_trace (s : String) : (prn s).trace = [.print s] := rfl

@[simp] lemma prn_result (s : String) : (prn s).result = .ok () := rfl

@[simp] lemma pureP_trace {α : Type} (a : α) : (Proc.pureP a).trace = [] := rfl

@[simp] lemma pureP_result {α : Type} (a : α) :
    (Proc.pureP a).result = .ok a := rfl

@[simp] lemma procExit_trace {α : Type} (c : Int) :
    (procExit (α := α) c).trace = [] := rfl

@[simp] lemma procExit_result {α : Type} (c : Int) :
    (procExit (α := α) c).result = .exited c := rfl

@[simp] lemma deref_some {α : Type} (a : α) : deref (some a) = Proc.pureP a :=
  rfl

@[simp] lemma deref_none {α : Type} :
    (deref (none : Option α)).result = .panicked := rfl

@[simp] lemma deref_none_trace {α : Type} :
    (deref (none : Option α)).trace = [] := rfl

@[simp] lemma sliceIndex_cons_zero {α : Type} (a : α) (l : List α) :
    sliceIndex (a :: l) 0 = Proc.pureP a := by
  simp [sliceIndex]

@[simp] lemma sliceIndex_nil_result {α : Type} (i : Nat) :
    (sliceIndex ([] : List α) i).result = .panicked := by
  simp [sliceIndex, deref]

@[simp] lemma sliceIndex_nil_trace {α : Type} (i : Nat) :
    (sliceIndex ([] : List α) i).trace = [] := by
  simp [sliceIndex, deref]

@[simp] lemma bind_eq_bindP {α β : Type} (x : Proc α) (f : α → Proc β) :
    x >>= f = x.bindP f := rfl

@[simp] lemma bindP_trace {α β : Type} (x : Proc α) (f : α → Proc β) :
    (x.bindP f).trace = x.trace ++ (match x.result with
      | .ok a => (f a).trace
      | _ => []) := by
  cases h : x.result <;> simp [Proc.bindP, h]

@[simp] lemma bindP_result {α β : Type} (x : Proc α) (f : α → Proc β) :
    (x.bindP f).result = (match x.result with
      | .ok a => (f a).result
      | .exited c => .exited c
      | .panicked => .panicked) := by
  cases h : x.result <;> simp [Proc.bindP, h]

@[ext] lemma proc_ext {α : Type} {x y : Proc α} (ht : x.trace = y.trace)
    (hr : x.result = y.result) : x = y := by
  cases x; cases y; cases ht; cases hr; rfl

/-- Unfolding of the `GetLogs` printing loop when every event message is
non-nil. -/
lemma printEvents_map_some (ms : List String) :
    printEvents (ms.map (fun m => ⟨some m⟩)) =
      ⟨ms.map (fun m => Event.print ("  " ++ " " ++ m)), .ok ()⟩ := by
  induction ms with
  | nil => rfl
  | cons m rest ih =>
    simp [printEvents, ih, Proc.bindP]

/-- Joining chunks with a separator character: the inverse reading of
`strings.Split`. -/
def joinChar (c : Char) : List (List Char) → List Char
  | [] => []
  | [x] => x
  | x :: xs => x ++ c :: joinChar c xs

lemma joinChar_cons_of_ne_nil (c : Char) (a : List Char) {l : List (List Char)}
    (h : l ≠ []) : joinChar c (a :: l) = a ++ c :: joinChar c l := by
  cases l with
  | nil => exact absurd rfl h
  | cons b m => rfl

lemma splitOnCharAux_ne_nil (c : Char) : ∀ (l acc : List Char),
    splitOnCharAux c l acc ≠ [] := by
  intro l
  induction l with
  | nil => intro acc; simp [splitOnCharAux]
  | cons x xs ih =>
    intro acc
    by_cases h : x = c <;> simp [splitOnCharAux, h, ih]

lemma joinChar_splitOnCharAux (c : Char) : ∀ (l acc : List Char),
    joinChar c (splitOnCharAux c l acc) = acc.reverse ++ l := by
  intro l
  induction l with
  | nil => intro acc; simp [splitOnCharAux, joinChar]
  | cons x xs ih =>
    intro acc
    by_cases h : x = c
    · simp only [splitOnCharAux]
      rw [if_pos h,
        joinChar_cons_of_ne_nil c _ (splitOnCharAux_ne_nil c xs []), ih]
      simp [h]
    · simp only [splitOnCharAux]
      rw [if_neg h, ih]
      simp

lemma splitOnCharAux_chunks_no_sep (c : Char) : ∀ (l acc : List Char),
    c ∉ acc → ∀ p ∈ splitOnCharAux c l acc, c ∉ p := by
  intro l
  induction l with
  | nil =>
    intro acc hacc p hp
    simp [splitOnCharAux] at hp
    subst hp; simpa using hacc
  | cons x xs ih =>
    intro acc hacc p hp
    by_cases h : x = c
    · simp only [splitOnCharAux] at hp
      rw [if_pos h] at hp
      rcases List.mem_cons.mp hp with hp1 | hp1
      · subst hp1; simpa using hacc
      · exact ih [] (by simp) p hp1
    · simp only [splitOnCharAux] at hp
      rw [if_neg h] at hp
      refine ih (x :: acc) ?_ p hp
      intro hmem
      rcases List.mem_cons.mp hmem with h1 | h1
      · exact h h1.symm
      · exact hacc h1

lemma splitOnCharAux_no_sep (c : Char) : ∀ (l acc : List Char),
    c ∉ l → splitOnCharAux c l acc = [acc.reverse ++ l] := by
  intro l
  induction l with
  | nil => intro acc _; simp [splitOnCharAux]
  | cons x xs ih =>
    intro acc h
    have hx : x ≠ c := fun hxc => h (by simp [hxc])
    have hxs : c ∉ xs := fun hmem => h (by simp [hmem])
    simp only [splitOnCharAux]
    rw [if_neg hx, ih _ hxs]
    simp

lemma splitOnCharAux_join_left (c : Char) : ∀ (p r acc : List Char),
    c ∉ p →
    splitOnCharAux c (p ++ c :: r) acc =
      (acc.reverse ++ p) :: splitOnCharAux c r [] := by
  intro p
  induction p with
  | nil =>
    intro r acc _
    simp [splitOnCharAux]
  | cons x xs ih =>
    intro r acc h
    have hx : x ≠ c := fun hxc => h (by simp [hxc])
    have hxs : c ∉ xs := fun hmem => h (by simp [hmem])
    rw [List.cons_append]
    simp only [splitOnCharAux]
    rw [if_neg hx, ih _ _ hxs]
    simp

lemma splitOnCharAux_joinChar (c : Char) : ∀ (parts : List (List Char)),
    parts ≠ [] → (∀ p ∈ parts, c ∉ p) →
    splitOnCharAux c (joinChar c parts) [] = parts := by
  intro parts
  induction parts with
  | nil => intro h; exact absurd rfl h
  | cons p rest ih =>
    intro _ hfree
    cases rest with
    | nil =>
      rw [joinChar, splitOnCharAux_no_sep c _ _ (hfree p (by simp))]
      simp
    | cons q m =>
      rw [joinChar_cons_of_ne_nil c p (by simp),
        splitOnCharAux_join_left c p _ [] (hfree p (by simp)),
        ih (by simp) (fun x hx => hfree x (List.mem_cons_of_mem p hx))]
      simp

/-- `takeWhile` over an append whose left part contains a failing
element never reaches the right part. -/
lemma takeWhile_append_of_mem_neg {α : Type} {p : α → Bool} :
    ∀ {a : List α} {x : α}, x ∈ a → p x = false →
      ∀ (b : List α), (a ++ b).takeWhile p = a.takeWhile p := by
  intro a
  induction a with
  | nil => intro x hx; exact absurd hx (List.not_mem_nil x)
  | cons y ys ih =>
    intro x hx hpx b
    by_cases hy : p y
    · have hxy : x ∈ ys := by
        rcases List.mem_cons.mp hx with h1 | h1
        · subst h1; rw [hy] at hpx; cases hpx
        · exact h1
      simp only [List.cons_append, List.takeWhile_cons_of_pos hy]
      rw [ih hxy hpx b]
    · simp only [List.cons_append, List.takeWhile_cons_of_neg hy]

/-- The last chunk of `splitOnCharAux`: everything after the last
occurrence of the separator (the whole input, appended to the pending
accumulator, when the separator does not occur). -/
lemma splitOnCharAux_getLastD (c : Char) : ∀ (l acc : List Char),
    (splitOnCharAux c l acc).getLastD [] =
      if c ∈ l then (l.reverse.takeWhile (fun a => a != c)).reverse
      else acc.reverse ++ l := by
  intro l
  induction l with
  | nil => intro acc; simp [splitOnCharAux]
  | cons x xs ih =>
    intro acc
    by_cases h : x = c
    · simp only [splitOnCharAux]
      rw [if_pos h]
      have hne := splitOnCharAux_ne_nil c xs []
      have hcons : (List.reverse acc :: splitOnCharAux c xs []).getLastD [] =
          (splitOnCharAux c xs []).getLastD [] := by
        cases hsp : splitOnCharAux c xs [] with
        | nil => exact absurd hsp hne
        | cons a m => simp
      rw [hcons, ih]
      by_cases hmem : c ∈ xs
      · rw [if_pos hmem, if_pos (by simp [h]), List.reverse_cons, h,
          takeWhile_append_of_mem_neg (x := c) (by simpa using hmem)
            (by simp) [c]]
      · rw [if_neg hmem, if_pos (by simp [h]), List.reverse_cons, h,
          List.takeWhile_append_of_pos
            (fun a ha => by
              simp only [bne_iff_ne, ne_eq]
              intro hac
              exact hmem (by simpa [hac] using List.mem_reverse.mp ha))]
        simp
    · simp only [splitOnCharAux]
      rw [if_neg h, ih]
      by_cases hmem : c ∈ xs
      · rw [if_pos hmem, if_pos (by simp [hmem]), List.reverse_cons,
          takeWhile_append_of_mem_neg (x := c) (by simpa using hmem)
            (by simp) [x]]
      · have hnot : c ∉ x :: xs := by
          intro hc
          rcases List.mem_cons.mp hc with h1 | h1
          · exact h h1.symm
          · exact hmem h1
        rw [if_neg hmem, if_neg hnot]
        simp

/-- Modelled from the claim's words (C7): the substring of `s` after the
last `'/'` — the longest suffix of `s` containing no `'/'` — which is the
whole string when no `'/'` occurs. -/
def suffixAfterLastSlash (s : String) : String :=
  String.mk ((s.data.reverse.takeWhile (fun a => a != '/')).reverse)

lemma mk_data_eq (s : String) : String.mk s.data = s := by
  cases s; rfl

lemma extractTaskArnID_eq_suffix (s : String) :
    extractTaskArnID s = suffixAfterLastSlash s := by
  have hmap : extractTaskArnID s =
      String.mk ((splitOnCharAux '/' s.data []).getLastD []) := by
    have h0 : ("" : String) = String.mk [] := rfl
    rw [extractTaskArnID, goSplit, h0, List.getLastD_map]
  rw [hmap, splitOnCharAux_getLastD, suffixAfterLastSlash]
  by_cases hmem : '/' ∈ s.data
  · rw [if_pos hmem]
  · rw [if_neg hmem]
    have hall : ∀ a ∈ s.data.reverse, (a != '/') = true := by
      intro a ha
      simp only [bne_iff_ne, ne_eq]
      intro hae
      exact hmem (by simpa [hae] using List.mem_reverse.mp ha)
    rw [List.takeWhile_eq_self_iff.mpr hall]
    simp

lemma extractTaskArnID_no_slash (s : String) (h : '/' ∉ s.data) :
    extractTaskArnID s = s := by
  rw [extractTaskArnID_eq_suffix, suffixAfterLastSlash]
  have hall : ∀ a ∈ s.data.reverse, (a != '/') = true := by
    intro a ha
    simp only [bne_iff_ne, ne_eq]
    intro hae
    exact h (by simpa [hae] using List.mem_reverse.mp ha)
  rw [List.takeWhile_eq_self_iff.mpr hall]
  simp [mk_data_eq]

/-- Modelled from the claim's words (C6): `parts` is "the ordered list of
comma-separated substrings" of `value` — no part contains a comma and the
parts, joined with commas, give back `value`. -/
def isCommaSplitOf (parts : List String) (value : String) : Prop :=
  String.mk (joinChar ',' (parts.map String.data)) = value ∧
    ∀ p ∈ parts, ',' ∉ p.data

lemma goSplit_isCommaSplitOf (s : String) :
    isCommaSplitOf (goSplit s ',') s := by
  constructor
  · rw [goSplit, List.map_map]
    have hid : (String.data ∘ String.mk) = id := by
      funext l; rfl
    rw [hid, List.map_id, joinChar_splitOnCharAux]
    simp [mk_data_eq]
  · intro p hp
    rw [goSplit] at hp
    rcases List.mem_map.mp hp with ⟨q, hq, rfl⟩
    exact splitOnCharAux_chunks_no_sep ',' s.data [] (by simp) q hq

lemma isCommaSplitOf_unique (parts : List String) (s : String)
    (hne : parts ≠ []) (h : isCommaSplitOf parts s) :
    parts = goSplit s ',' := by
  obtain ⟨hjoin, hfree⟩ := h
  have hdata : s.data = joinChar ',' (parts.map String.data) := by
    rw [← hjoin]
  rw [goSplit, hdata,
    splitOnCharAux_joinChar ',' (parts.map String.data)
      (by simpa using hne)
      (by
        intro p hp
        rcases List.mem_map.mp hp with ⟨q, hq, rfl⟩
        exact hfree q hq),
    List.map_map]
  have hid : (String.mk ∘ String.data) = id := by
    funext t; exact mk_data_eq t
  rw [hid, List.map_id]

/- ### claim theorems -/

/-- C1: for every stream-name prefix `P` read from the task template's
first container logging configuration, container name `C` from the
launched task, and task-id tail `T`, the log-stream name derived by
`RunTask` equals `P ++ "/" ++ C ++ "/" ++ T` (returned as the second
component, alongside the log-group name and the task-id tail). -/
theorem ecs_C1_runTask_logStreamName (env : Env) (sn sg cl lt td : String)
    (t0 : GoTask) (ts : List GoTask) (arn : String)
    (c0 : GoContainer) (cs : List GoContainer) (C : String)
    (tdf : TaskDefinition) (cd0 : ContainerDefinition)
    (cds : List ContainerDefinition) (lc : LogConfiguration)
    (P G T : String)
    (hrun : env.runTaskResp = .ok ⟨t0 :: ts⟩)
    (harn : t0.taskArn = some arn)
    (hcs : t0.containers = c0 :: cs)
    (hname : c0.name = some C)
    (hdtd : env.describeTaskDefinitionResp = .ok ⟨some tdf⟩)
    (hcds : tdf.containerDefinitions = cd0 :: cds)
    (hlc : cd0.logConfiguration = some lc)
    (hP : mapGet lc.options "awslogs-stream-prefix" = some P)
    (hG : mapGet lc.options "awslogs-group" = some G)
    (hwait : env.waitUntilTasksStoppedResp = .ok ())
    (hT : extractTaskArnID arn = T) :
    (RunTask env sn sg cl lt td).result =
      .ok (G, P ++ "/" ++ C ++ "/" ++ T, T) := by
  subst hT
  by_cases hif : sn ≠ "" ∨ sg ≠ "" <;>
    simp [RunTask, hif, hrun, harn, hcs, hname, hdtd, hcds, hlc, hP, hG, hwait]

def taskC1 : GoTask :=
  ⟨some "arn:aws:ecs:eu-west-1:1:task/cl/task123",
   [⟨some "web", some 0⟩], some "stopped"⟩

def lcC1 : LogConfiguration :=
  ⟨[("awslogs-stream-prefix", some "pre"), ("awslogs-group", some "grp")]⟩

def envC1 : Env :=
  { runTaskResp := .ok ⟨[taskC1]⟩
    describeTaskDefinitionResp := .ok ⟨some ⟨[⟨some lcC1⟩]⟩⟩
    waitUntilTasksStoppedResp := .ok ()
    getLogEventsResp := .ok ⟨[]⟩
    describeTasksResp := .ok ⟨[taskC1]⟩
    registerTaskDefinitionResp := .ok ⟨some ⟨some "arn:new"⟩⟩
    openFileResp := .ok () }

/-- C1 witness: a concrete successful run yields the log-stream name
`pre/web/task123`. -/
theorem ecs_C1_witness :
    (RunTask envC1 "" "" "cl" "FARGATE" "nginx").result =
      .ok ("grp", "pre" ++ "/" ++ "web" ++ "/" ++ "task123", "task123") :=
  ecs_C1_runTask_logStreamName envC1 "" "" "cl" "FARGATE" "nginx"
    taskC1 [] "arn:aws:ecs:eu-west-1:1:task/cl/task123"
    ⟨some "web", some 0⟩ [] "web"
    ⟨[⟨some lcC1⟩]⟩ ⟨some lcC1⟩ [] lcC1
    "pre" "grp" "task123"
    rfl rfl rfl rfl rfl rfl rfl (by decide) (by decide) rfl (by decide)

/-- C4: `GetLogs` issues exactly one log-retrieval request, asking for at
most 100 events starting from the earliest (`Limit=100`,
`StartFromHead=true`), does not paginate further, and prints exactly the
returned messages in list order, each as one line after the `Logs:`
header. -/
theorem ecs_C4_getLogs_events (env : Env) (stream group : String)
    (ms : List String)
    (h : env.getLogEventsResp = .ok ⟨ms.map (fun m => ⟨some m⟩)⟩) :
    GetLogs env stream group =
      ⟨Event.apiGetLogEvents ⟨100, group, stream, true⟩ ::
        Event.print "Logs:" ::
        ms.map (fun m => Event.print ("  " ++ " " ++ m)), .ok ()⟩ := by
  apply proc_ext <;> simp [GetLogs, h, printEvents_map_some]

def envC4 : Env :=
  { envC1 with getLogEventsResp := .ok ⟨[⟨some "first"⟩, ⟨some "second"⟩]⟩ }

/-- C4 witness: two returned messages are printed in order after the
header, and the single request asks for 100 events from the head. -/
theorem ecs_C4_witness :
    GetLogs envC4 "pre/web/task123" "grp" =
      ⟨[Event.apiGetLogEvents ⟨100, "grp", "pre/web/task123", true⟩,
        Event.print "Logs:",
        Event.print ("  " ++ " " ++ "first"),
        Event.print ("  " ++ " " ++ "second")], .ok ()⟩ :=
  ecs_C4_getLogs_events envC4 "pre/web/task123" "grp" ["first", "second"] rfl

/-- C6: when at least one of the two flags is non-empty, the run request
carries a network configuration whose subnet and security-group lists are
exactly the ordered comma-separated substrings of the respective flag
values: the lists sent are `goSplit _ ','`, and `goSplit v ','` is the
unique non-empty comma-free list of strings that joined with commas gives
back `v`. -/
theorem ecs_C6_network_lists (env : Env) (sn sg cl lt td : String)
    (h : sn ≠ "" ∨ sg ≠ "") :
    Event.apiRunTask
        { cluster := cl, count := 1, launchType := lt, taskDefinition := td,
          networkConfiguration := some
            ⟨⟨goSplit sn ',', goSplit sg ','⟩⟩ } ∈
      (RunTask env sn sg cl lt td).trace ∧
    isCommaSplitOf (goSplit sn ',') sn ∧
    isCommaSplitOf (goSplit sg ',') sg ∧
    (∀ parts, parts ≠ [] → isCommaSplitOf parts sn → parts = goSplit sn ',') ∧
    (∀ parts, parts ≠ [] → isCommaSplitOf parts sg → parts = goSplit sg ',') := by
  refine ⟨?_, goSplit_isCommaSplitOf sn, goSplit_isCommaSplitOf sg,
    fun parts hne hsp => isCommaSplitOf_unique parts sn hne hsp,
    fun parts hne hsp => isCommaSplitOf_unique parts sg hne hsp⟩
  simp [RunTask, h]

/-- C6 witness: with `subnets=subnet-a,subnet-b,subnet-c` and
`security-groups=sg-xxx` the request carries exactly those lists. -/
theorem ecs_C6_witness :
    Event.apiRunTask
        { cluster := "cl", count := 1, launchType := "FARGATE",
          taskDefinition := "nginx",
          networkConfiguration := some
            ⟨⟨goSplit "subnet-a,subnet-b,subnet-c" ',',
              goSplit "sg-xxx" ','⟩⟩ } ∈
      (RunTask envC1 "subnet-a,subnet-b,subnet-c" "sg-xxx" "cl" "FARGATE"
        "nginx").trace ∧
    goSplit "subnet-a,subnet-b,subnet-c" ',' =
      ["subnet-a", "subnet-b", "subnet-c"] ∧
    goSplit "sg-xxx" ',' = ["sg-xxx"] :=
  ⟨(ecs_C6_network_lists envC1 "subnet-a,subnet-b,subnet-c" "sg-xxx" "cl"
      "FARGATE" "nginx" (Or.inl (by decide))).1,
   by decide, by decide⟩

/-- C7: the task-id tail used in the log-stream name is the trailing
`"/"`-separated segment of the task ARN: for every string it equals the
substring after the last `"/"`, and the whole string when no `"/"`
occurs. -/
theorem ecs_C7_taskArnID_tail (s : String) :
    extractTaskArnID s = suffixAfterLastSlash s ∧
      ('/' ∉ s.data → extractTaskArnID s = s) :=
  ⟨extractTaskArnID_eq_suffix s, extractTaskArnID_no_slash s⟩

/-- C7 witness: concrete ARNs with and without a slash. -/
theorem ecs_C7_witness :
    extractTaskArnID "arn:aws:ecs:task/cl/abc" =
      suffixAfterLastSlash "arn:aws:ecs:task/cl/abc" ∧
    extractTaskArnID "noslash" = "noslash" :=
  ⟨(ecs_C7_taskArnID_tail "arn:aws:ecs:task/cl/abc").1,
   (ecs_C7_taskArnID_tail "noslash").2 (by decide)⟩

/-- Tests whether an event is a remote API request (as opposed to local
output). -/
def isApiEvent : Event → Bool
  | .print _ => false
  | .printUsage => false
  | _ => true

/-- C9: with an empty cluster flag or an empty task-definition flag the
process prints usage and exits 1, and its trace holds no API request to
either service. -/
theorem ecs_C9_usage_exit (env : Env) (f : Flags)
    (h : f.ecsCluster = "" ∨ f.taskDefinition = "") :
    rootRun env f = ⟨[Event.printUsage], .exited 1⟩ ∧
      ∀ ev ∈ (rootRun env f).trace, isApiEvent ev = false := by
  have heq : rootRun env f = ⟨[Event.printUsage], .exited 1⟩ := by
    unfold rootRun
    rw [if_pos h]
    rfl
  refine ⟨heq, ?_⟩
  rw [heq]
  intro ev hev
  simp at hev
  subst hev
  rfl

/-- C9 witness: empty cluster flag. -/
theorem ecs_C9_witness :
    rootRun envC1
        ⟨"", "nginx", false, "", "", "FARGATE"⟩ =
      ⟨[Event.printUsage], .exited 1⟩ :=
  (ecs_C9_usage_exit envC1 ⟨"", "nginx", false, "", "", "FARGATE"⟩
    (Or.inl rfl)).1

/-- C2: on the success path the process prints the task's stop reason and
terminates with exactly the exit code that `GetExit` read from the first
container of the first task of the describe-tasks response (e.g. a
reported exit code 137 yields process exit status 137). -/
theorem ecs_C2_exit_propagation (env : Env) (f : Flags)
    (t0 : GoTask) (ts : List GoTask) (arn : String)
    (c0 : GoContainer) (cs : List GoContainer) (C : String)
    (tdf : TaskDefinition) (cd0 : ContainerDefinition)
    (cds : List ContainerDefinition) (lc : LogConfiguration)
    (P G : String) (ms : List String)
    (dt0 : GoTask) (dts : List GoTask)
    (dc0 : GoContainer) (dcs : List GoContainer)
    (ec : Int) (r : String)
    (hc : f.ecsCluster ≠ "") (ht : f.taskDefinition ≠ "")
    (hfile : f.taskDefinitionFile = false)
    (hrun : env.runTaskResp = .ok ⟨t0 :: ts⟩)
    (harn : t0.taskArn = some arn)
    (hcs : t0.containers = c0 :: cs)
    (hname : c0.name = some C)
    (hdtd : env.describeTaskDefinitionResp = .ok ⟨some tdf⟩)
    (hcds : tdf.containerDefinitions = cd0 :: cds)
    (hlc : cd0.logConfiguration = some lc)
    (hP : mapGet lc.options "awslogs-stream-prefix" = some P)
    (hG : mapGet lc.options "awslogs-group" = some G)
    (hwait : env.waitUntilTasksStoppedResp = .ok ())
    (hlogs : env.getLogEventsResp = .ok ⟨ms.map (fun m => ⟨some m⟩)⟩)
    (hdt : env.describeTasksResp = .ok ⟨dt0 :: dts⟩)
    (hdc : dt0.containers = dc0 :: dcs)
    (hec : dc0.exitCode = some ec)
    (hsr : dt0.stoppedReason = some r) :
    (rootRun env f).result = .exited ec ∧
      Event.print ("Exit reason:" ++ " " ++ r) ∈ (rootRun env f).trace := by
  by_cases hif : f.subnets ≠ "" ∨ f.securityGroups ≠ "" <;>
    constructor <;>
      simp [rootRun, RunTask, GetLogs, GetExit, printEvents_map_some,
        hc, ht, hfile, hif, hrun, harn, hcs, hname, hdtd, hcds, hlc, hP, hG,
        hwait, hlogs, hdt, hdc, hec, hsr]

def taskC2 : GoTask :=
  ⟨some "arn:aws:ecs:eu-west-1:1:task/cl/task137",
   [⟨some "web", some 137⟩], some "Essential container in task exited"⟩

def envC2 : Env :=
  { runTaskResp := .ok ⟨[taskC2]⟩
    describeTaskDefinitionResp := .ok ⟨some ⟨[⟨some lcC1⟩]⟩⟩
    waitUntilTasksStoppedResp := .ok ()
    getLogEventsResp := .ok ⟨[⟨some "out"⟩]⟩
    describeTasksResp := .ok ⟨[taskC2]⟩
    registerTaskDefinitionResp := .ok ⟨some ⟨some "arn:new"⟩⟩
    openFileResp := .ok () }

def flagsC2 : Flags := ⟨"cl", "nginx", false, "", "", "FARGATE"⟩

/-- C2 witness: a reported container exit code 137 yields process exit
status 137, with the stop reason printed. -/
theorem ecs_C2_witness :
    (rootRun envC2 flagsC2).result = .exited 137 ∧
      Event.print ("Exit reason:" ++ " " ++ "Essential container in task exited") ∈
        (rootRun envC2 flagsC2).trace :=
  ecs_C2_exit_propagation envC2 flagsC2
    taskC2 [] "arn:aws:ecs:eu-west-1:1:task/cl/task137"
    ⟨some "web", some 137⟩ [] "web"
    ⟨[⟨some lcC1⟩]⟩ ⟨some lcC1⟩ [] lcC1
    "pre" "grp" ["out"]
    taskC2 [] ⟨some "web", some 137⟩ []
    137 "Essential container in task exited"
    (by decide) (by decide) rfl
    rfl rfl rfl rfl rfl rfl rfl (by decide) (by decide) rfl rfl rfl rfl rfl
    rfl

/-- C3: when the run-task request returns an error, the process prints the
error and exits with status 1, and its trace holds no log-retrieval
request. -/
theorem ecs_C3_runTask_error (env : Env) (f : Flags) (e : String)
    (hc : f.ecsCluster ≠ "") (ht : f.taskDefinition ≠ "")
    (hfile : f.taskDefinitionFile = false)
    (herr : env.runTaskResp = .error e) :
    (rootRun env f).result = .exited 1 ∧
      Event.print e ∈ (rootRun env f).trace ∧
      ∀ i, Event.apiGetLogEvents i ∉ (rootRun env f).trace := by
  by_cases hif : f.subnets ≠ "" ∨ f.securityGroups ≠ "" <;>
    refine ⟨?_, ?_, ?_⟩ <;>
      simp [rootRun, RunTask, hc, ht, hfile, hif, herr]

def envC3 : Env :=
  { envC2 with runTaskResp := .error "AccessDeniedException" }

/-- C3 witness: a concrete run-task error is printed, the process exits 1,
and no log request appears in the trace. -/
theorem ecs_C3_witness :
    (rootRun envC3 flagsC2).result = .exited 1 ∧
      Event.print "AccessDeniedException" ∈ (rootRun envC3 flagsC2).trace ∧
      ∀ i, Event.apiGetLogEvents i ∉ (rootRun envC3 flagsC2).trace :=
  ecs_C3_runTask_error envC3 flagsC2 "AccessDeniedException"
    (by decide) (by decide) rfl rfl

def envC5 : Env :=
  { envC2 with
      openFileResp := .error "open missing.json: no such file or directory" }

/-- C5 (failing part, at the failing input): in task-template-file mode a
file read failure is not fatal — `ParseTaskDefinition` prints the open
error, then still prints the success message and proceeds to register the
(empty) task definition, returning normally when registration succeeds;
parse errors are discarded the same way.  Only a registration failure is
fatal. -/
theorem ecs_C5_read_failure_not_fatal :
    ParseTaskDefinition envC5 "missing.json" =
      ⟨[Event.print "open missing.json: no such file or directory",
        Event.print
          ("Successfully Opened task definition:" ++ " " ++ "missing.json"),
        Event.apiRegisterTaskDefinition], .ok "arn:new"⟩ := by
  decide

/-- C8 counterexample: `init()` registers no `log-group` flag (the flags
are cluster, task-definition, file, launch-type, security-groups,
subnets), so the CLI does not accept a log-group override. -/
theorem ecs_C8_counterexample : "log-group" ∉ registeredFlags := by decide

/-- C8 (amended): the CLI accepts no log-group flag; the log-group name
used for the log-retrieval request is read from the task template's first
container logging configuration option `awslogs-group`. -/
theorem ecs_C8_amended_log_group (env : Env) (f : Flags)
    (t0 : GoTask) (ts : List GoTask) (arn : String)
    (c0 : GoContainer) (cs : List GoContainer) (C : String)
    (tdf : TaskDefinition) (cd0 : ContainerDefinition)
    (cds : List ContainerDefinition) (lc : LogConfiguration)
    (P G : String)
    (hc : f.ecsCluster ≠ "") (ht : f.taskDefinition ≠ "")
    (hfile : f.taskDefinitionFile = false)
    (hrun : env.runTaskResp = .ok ⟨t0 :: ts⟩)
    (harn : t0.taskArn = some arn)
    (hcs : t0.containers = c0 :: cs)
    (hname : c0.name = some C)
    (hdtd : env.describeTaskDefinitionResp = .ok ⟨some tdf⟩)
    (hcds : tdf.containerDefinitions = cd0 :: cds)
    (hlc : cd0.logConfiguration = some lc)
    (hP : mapGet lc.options "awslogs-stream-prefix" = some P)
    (hG : mapGet lc.options "awslogs-group" = some G)
    (hwait : env.waitUntilTasksStoppedResp = .ok ()) :
    "log-group" ∉ registeredFlags ∧
      Event.apiGetLogEvents
          ⟨100, G, P ++ "/" ++ C ++ "/" ++ extractTaskArnID arn, true⟩ ∈
        (rootRun env f).trace := by
  refine ⟨by decide, ?_⟩
  by_cases hif : f.subnets ≠ "" ∨ f.securityGroups ≠ "" <;>
    simp [rootRun, RunTask, GetLogs, hc, ht, hfile, hif, hrun, harn, hcs,
      hname, hdtd, hcds, hlc, hP, hG, hwait]

/-- C8 witness: the concrete run requests logs from log group `grp`, the
`awslogs-group` option of the template. -/
theorem ecs_C8_witness :
    "log-group" ∉ registeredFlags ∧
      Event.apiGetLogEvents
          ⟨100, "grp", "pre" ++ "/" ++ "web" ++ "/" ++
            extractTaskArnID "arn:aws:ecs:eu-west-1:1:task/cl/task137",
            true⟩ ∈
        (rootRun envC2 flagsC2).trace :=
  ecs_C8_amended_log_group envC2 flagsC2
    taskC2 [] "arn:aws:ecs:eu-west-1:1:task/cl/task137"
    ⟨some "web", some 137⟩ [] "web"
    ⟨[⟨some lcC1⟩]⟩ ⟨some lcC1⟩ [] lcC1
    "pre" "grp"
    (by decide) (by decide) rfl
    rfl rfl rfl rfl rfl rfl rfl (by decide) (by decide) rfl

/-- C10: `RunTask` and `GetExit` dereference the first task, first
container and exit-code pointer without any check: a successful response
with an empty task list, an empty container list, or an absent exit code
sends the extraction into the panic branch of the model, and the
extraction is safe exactly under the precondition that the response
carries at least one task with at least one container, a set exit code
and a set stop reason. -/
theorem ecs_C10_unchecked_extraction
    (env₁ env₂ env₃ env₄ env₅ : Env) (cl t sn sg lt td : String)
    (a sr nm : Option String)
    (cs : List GoContainer) (ts : List GoTask)
    (ec : Int) (r : String)
    (h1 : env₁.describeTasksResp = .ok ⟨[]⟩)
    (h2 : env₂.describeTasksResp = .ok ⟨⟨a, [], sr⟩ :: ts⟩)
    (h3 : env₃.describeTasksResp =
      .ok ⟨⟨a, GoContainer.mk nm none :: cs, sr⟩ :: ts⟩)
    (h4 : env₄.runTaskResp = .ok ⟨[]⟩)
    (h5 : env₅.describeTasksResp =
      .ok ⟨⟨a, GoContainer.mk nm (some ec) :: cs, some r⟩ :: ts⟩) :
    (GetExit env₁ cl t).result = .panicked ∧
    (GetExit env₂ cl t).result = .panicked ∧
    (GetExit env₃ cl t).result = .panicked ∧
    (RunTask env₄ sn sg cl lt td).result = .panicked ∧
    (GetExit env₅ cl t).result = .ok (ec, r) := by
  refine ⟨?_, ?_, ?_, ?_, ?_⟩
  · simp [GetExit, h1]
  · simp [GetExit, h2]
  · simp [GetExit, h3]
  · by_cases hif : sn ≠ "" ∨ sg ≠ "" <;> simp [RunTask, hif, h4]
  · simp [GetExit, h5]

def envC10a : Env := { envC2 with describeTasksResp := .ok ⟨[]⟩ }

def envC10b : Env :=
  { envC2 with
      describeTasksResp := .ok
        ⟨[⟨some "arn:aws:ecs:eu-west-1:1:task/cl/task137", [],
           some "Essential container in task exited"⟩]⟩ }

def envC10c : Env :=
  { envC2 with
      describeTasksResp := .ok
        ⟨[⟨some "arn:aws:ecs:eu-west-1:1:task/cl/task137",
           [⟨some "web", none⟩],
           some "Essential container in task exited"⟩]⟩ }

def envC10d : Env := { envC2 with runTaskResp := .ok ⟨[]⟩ }

/-- C10 witness: concrete malformed-but-successful responses panic the
extraction; a well-formed one succeeds. -/
theorem ecs_C10_witness :
    (GetExit envC10a "cl" "t").result = .panicked ∧
    (GetExit envC10b "cl" "t").result = .panicked ∧
    (GetExit envC10c "cl" "t").result = .panicked ∧
    (RunTask envC10d "" "" "cl" "FARGATE" "nginx").result = .panicked ∧
    (GetExit envC2 "cl" "t").result =
      .ok (137, "Essential container in task exited") :=
  ecs_C10_unchecked_extraction envC10a envC10b envC10c envC10d envC2
    "cl" "t" "" "" "FARGATE" "nginx"
    (some "arn:aws:ecs:eu-west-1:1:task/cl/task137")
    (some "Essential container in task exited") (some "web") [] [] 137
    "Essential container in task exited"
    rfl rfl rfl rfl rfl
